import Mathlib

/-!
Shallow embedding of the `parthenon::MeshBlockData<T>` container
(`src/interface/meshblock_data.hpp`) and the pieces of its collaborators that the
verified claims need.  C++ pointer identity of a `CellVariable`/`FaceVariable`
object is modelled by a `uid : Nat` field, and the identity of its underlying
numeric buffer by a `storage : Nat` field (two records alias the same storage
iff their `storage` fields coincide).  `std::map` is modelled by an association
list kept sorted by key, matching the sorted iteration order the C++ code relies
on in `operator==`.  Exceptions (`PARTHENON_THROW`, `std::runtime_error`) are
modelled with `Except`.
-/

namespace Parthenon

/-- Error values thrown by the container.  `parthenonThrow` models
`PARTHENON_THROW`/`PARTHENON_REQUIRE_THROWS` with its message, `runtimeError`
models a plain `std::runtime_error`, and `duplicateName` models the
DuplicateNameError of the spec for the spec-modelled `Add(label, metadata)`
whose body is not under `src/`. -/
inductive PError where
  | parthenonThrow (msg : String)
  | runtimeError (msg : String)
  | duplicateName (label : String)
deriving DecidableEq, Repr

/-- The two metadata flags the embedded code inspects (`Metadata::Sparse`,
`Metadata::OneCopy`); the spec treats the flag vocabulary as an opaque tag set
and the container only tests membership. -/
inductive MetadataFlag where
  | Sparse
  | OneCopy
deriving DecidableEq, Repr

/-- Metadata of a variable, restricted to the two capability tags the embedded
operations test. -/
structure Metadata where
  sparse : Bool
  oneCopy : Bool
deriving DecidableEq, Repr

/-- Membership test `Metadata::IsSet`. -/
def Metadata.IsSet (m : Metadata) : MetadataFlag → Bool
  | .Sparse => m.sparse
  | .OneCopy => m.oneCopy

/-- A dense (cell-centered) variable record.  `uid` models C++ object identity
(the address held by the `shared_ptr`), `storage` models the identity of the
underlying numeric buffer, `allocated` the allocation state of a sparse
variable. -/
structure CellVariable where
  uid : Nat
  label : String
  meta : Metadata
  allocated : Bool
  storage : Nat
deriving DecidableEq, Repr

/-- Flag test `CellVariable::IsSet`. -/
def CellVariable.IsSet (v : CellVariable) (f : MetadataFlag) : Bool :=
  v.meta.IsSet f

/-- Sparse test `CellVariable::IsSparse`. -/
def CellVariable.IsSparse (v : CellVariable) : Bool :=
  v.meta.sparse

/-- Allocation query `CellVariable::IsAllocated`. -/
def CellVariable.IsAllocated (v : CellVariable) : Bool :=
  v.allocated

/-- Modelled from the spec: the body of `CellVariable<T>::Allocate` lives in
`interface/variable.hpp`, which is not under `src/`.  Per the spec,
AllocateSparse "transitions a Sparse record from Unallocated to Allocated,
materializing its storage" and "on an already-allocated sparse variable it is
idempotent (no error, no change)".  Identity (`uid`) and buffer identity
(`storage`) of the record are unchanged by allocation. -/
def CellVariable.Allocate (v : CellVariable) : CellVariable :=
  if v.allocated then v else { v with allocated := true }

/-- Modelled from the spec: the body of `CellVariable<T>::AllocateCopy` lives in
`interface/variable.hpp`, which is not under `src/`.  Per the spec, deriving a
non-OneCopy record "duplicates its storage into a fresh allocation bound to the
same owning block": the copy keeps the label and metadata but is a fresh object
with fresh backing storage.  `fresh` is the next unused identity. -/
def CellVariable.AllocateCopy (v : CellVariable) (fresh : Nat) : CellVariable :=
  { v with uid := fresh, storage := fresh, allocated := true }

/-- A face-located variable record, with the same identity conventions as
`CellVariable`. -/
structure FaceVariable where
  uid : Nat
  label : String
  meta : Metadata
  storage : Nat
deriving DecidableEq, Repr

/-- Flag test `FaceVariable::IsSet`. -/
def FaceVariable.IsSet (v : FaceVariable) (f : MetadataFlag) : Bool :=
  v.meta.IsSet f

/-- Lexicographic comparison of character lists by character code. -/
def charListLt : List Char → List Char → Bool
  | [], [] => false
  | [], _ :: _ => true
  | _ :: _, [] => false
  | a :: as, b :: bs =>
    if a.val < b.val then true
    else if b.val < a.val then false
    else charListLt as bs

/-- The strict order `std::string::operator<` (byte-wise lexicographic
comparison, which for UTF-8 encoded strings coincides with codepoint-wise
lexicographic comparison). -/
def strLt (a b : String) : Bool := charListLt a.data b.data

/-- Lookup in a `std::map<std::string, _>` modelled as an association list. -/
def mapFind {α : Type} : List (String × α) → String → Option α
  | [], _ => none
  | (k, v) :: rest, key => if key = k then some v else mapFind rest key

/-- Insert-or-assign, the net effect of `map_[key] = value` on a `std::map`.
The list is kept sorted by key, matching the sorted iteration order of
`std::map<std::string, _>`. -/
def mapInsertAssign {α : Type} : List (String × α) → String → α → List (String × α)
  | [], key, v => [(key, v)]
  | (k, w) :: rest, key, v =>
    if key = k then (key, v) :: rest
    else if strLt key k then (key, v) :: (k, w) :: rest
    else (k, w) :: mapInsertAssign rest key v

/-- Key list of a map, in iteration (sorted) order. -/
def mapKeys {α : Type} (m : List (String × α)) : List String :=
  m.map Prod.fst

/-- An index range supplied by the owning mesh block. -/
structure IndexRange where
  s : Int
  e : Int
deriving DecidableEq, Repr

/-- Modelled from the spec: the `IndexDomain` enumeration (`mesh/domain.hpp` is
not under `src/`) distinguishes the interior extent from the entire (ghost
included) extent of a block. -/
inductive IndexDomain where
  | entire
  | interior
deriving DecidableEq, Repr

/-- Modelled from the spec: the owning block's `cellbounds` object, which
"supplies index-range bounds (interior/ghost extents per dimension)". -/
structure IndexShape where
  interiorI : IndexRange
  entireI : IndexRange
  interiorJ : IndexRange
  entireJ : IndexRange
  interiorK : IndexRange
  entireK : IndexRange
deriving DecidableEq, Repr

/-- Per-dimension bound query of the block's `cellbounds`. -/
def IndexShape.GetBoundsI (s : IndexShape) : IndexDomain → IndexRange
  | .interior => s.interiorI
  | .entire => s.entireI

/-- Per-dimension bound query of the block's `cellbounds`. -/
def IndexShape.GetBoundsJ (s : IndexShape) : IndexDomain → IndexRange
  | .interior => s.interiorJ
  | .entire => s.entireJ

/-- Per-dimension bound query of the block's `cellbounds`. -/
def IndexShape.GetBoundsK (s : IndexShape) : IndexDomain → IndexRange
  | .interior => s.interiorK
  | .entire => s.entireK

/-- Modelled from the spec: the owning `MeshBlock` (not under `src/`) is a
lifetime anchor that supplies index-range bounds and accepts an allowed
time-step.  Timestep values are modelled as integers; their numeric meaning is
irrelevant to the claims. -/
structure MeshBlock where
  uid : Nat
  cellbounds : IndexShape
  allowed_dt : Int
deriving DecidableEq, Repr

/-- The `MeshBlockData<T>` container: ordered dense and face record sequences
(`varVector_`, `faceVector_`), the name-to-record maps (`varMap_`, `faceMap_`),
and the weak back-reference `pmy_block` to the owning block.  The weak pointer
is modelled as an `Option`: `none` is an expired (or never set) reference,
`some b` a live block; holding the `Option` does not model any ownership, so
the container never extends the block's lifetime. -/
structure MeshBlockData where
  pmy_block : Option MeshBlock
  varVector : List CellVariable
  faceVector : List FaceVariable
  varMap : List (String × CellVariable)
  faceMap : List (String × FaceVariable)
deriving DecidableEq, Repr

/-- The default-constructed container (`MeshBlockData<T>() = default`). -/
def emptyData : MeshBlockData :=
  { pmy_block := none, varVector := [], faceVector := [], varMap := [], faceMap := [] }

/-- `MeshBlockData::GetBlockPointer`: throws when the weak reference is
expired, otherwise locks it. -/
def MeshBlockData.GetBlockPointer (c : MeshBlockData) : Except PError MeshBlock :=
  match c.pmy_block with
  | none => .error (.parthenonThrow "Invalid pointer to MeshBlock!")
  | some b => .ok b

/-- `MeshBlockData::GetParentPointer` forwards to `GetBlockPointer`. -/
def MeshBlockData.GetParentPointer (c : MeshBlockData) : Except PError MeshBlock :=
  c.GetBlockPointer

/-- `MeshBlockData::SetAllowedDt`: locks the block and sets its allowed
time-step; the effect lands on the live block, so the model returns the updated
block. -/
def MeshBlockData.SetAllowedDt (c : MeshBlockData) (dt : Int) : Except PError MeshBlock :=
  match c.GetBlockPointer with
  | .error err => .error err
  | .ok b => .ok { b with allowed_dt := dt }

/-- `MeshBlockData::GetBoundsI` via the locked block's `cellbounds`. -/
def MeshBlockData.GetBoundsI (c : MeshBlockData) (d : IndexDomain) :
    Except PError IndexRange :=
  match c.GetBlockPointer with
  | .error err => .error err
  | .ok b => .ok (b.cellbounds.GetBoundsI d)

/-- `MeshBlockData::GetBoundsJ` via the locked block's `cellbounds`. -/
def MeshBlockData.GetBoundsJ (c : MeshBlockData) (d : IndexDomain) :
    Except PError IndexRange :=
  match c.GetBlockPointer with
  | .error err => .error err
  | .ok b => .ok (b.cellbounds.GetBoundsJ d)

/-- `MeshBlockData::GetBoundsK` via the locked block's `cellbounds`. -/
def MeshBlockData.GetBoundsK (c : MeshBlockData) (d : IndexDomain) :
    Except PError IndexRange :=
  match c.GetBlockPointer with
  | .error err => .error err
  | .ok b => .ok (b.cellbounds.GetBoundsK d)

/-- `MeshBlockData::Add(std::shared_ptr<CellVariable<T>>)`: appends to the
ordered sequence and insert-or-assigns into the name map, with no duplicate
check. -/
def MeshBlockData.AddCellVar (c : MeshBlockData) (var : CellVariable) : MeshBlockData :=
  { c with
    varVector := c.varVector ++ [var]
    varMap := mapInsertAssign c.varMap var.label var }

/-- `MeshBlockData::Add(std::shared_ptr<FaceVariable<T>>)`: appends to the
ordered face sequence and insert-or-assigns into the face name map. -/
def MeshBlockData.AddFaceVar (c : MeshBlockData) (var : FaceVariable) : MeshBlockData :=
  { c with
    faceVector := c.faceVector ++ [var]
    faceMap := mapInsertAssign c.faceMap var.label var }

/-- `MeshBlockData::HasCellVariable`. -/
def MeshBlockData.HasCellVariable (c : MeshBlockData) (label : String) : Bool :=
  (mapFind c.varMap label).isSome

/-- `MeshBlockData::GetCellVarPtr`: returns the mapped record or throws. -/
def MeshBlockData.GetCellVarPtr (c : MeshBlockData) (label : String) :
    Except PError CellVariable :=
  match mapFind c.varMap label with
  | none =>
    .error (.parthenonThrow ("\n" ++ label ++ " array not found in Get()\n"))
  | some v => .ok v

/-- `MeshBlockData::Contains(name)`: looks the name up in the dense map and
then in the face map. -/
def MeshBlockData.ContainsName (c : MeshBlockData) (name : String) : Bool :=
  (mapFind c.varMap name).isSome || (mapFind c.faceMap name).isSome

/-- `MeshBlockData::IsAllocated(label)`: false if missing, else the record's
allocation state. -/
def MeshBlockData.IsAllocatedLabel (c : MeshBlockData) (label : String) : Bool :=
  match mapFind c.varMap label with
  | none => false
  | some v => v.IsAllocated

/-- Mutation through the shared pointer of the record with object identity
`uid`: every occurrence of that object, in the ordered sequence and in the name
map, observes the update (they hold the same C++ object). -/
def MeshBlockData.updateCellVar (c : MeshBlockData) (uid : Nat)
    (f : CellVariable → CellVariable) : MeshBlockData :=
  { c with
    varVector := c.varVector.map (fun v => if v.uid = uid then f v else v)
    varMap := c.varMap.map (fun p => if p.2.uid = uid then (p.1, f p.2) else p) }

/-- `MeshBlockData::AllocateSparse`: throws if no variable with the label
exists, requires the variable to be sparse, then allocates it through the
shared pointer and returns it. -/
def MeshBlockData.AllocateSparse (c : MeshBlockData) (label : String) :
    Except PError (MeshBlockData × CellVariable) :=
  if ¬ c.HasCellVariable label then
    .error (.parthenonThrow ("Tried to allocate sparse variable " ++ label ++
      ", but no such sparse variable exists"))
  else
    match mapFind c.varMap label with
    | none =>
      .error (.parthenonThrow ("Tried to allocate sparse variable " ++ label ++
        ", but no such sparse variable exists"))
    | some var =>
      if ¬ var.IsSparse then
        .error (.parthenonThrow ("Tried to allocate non-sparse variable " ++ label))
      else
        .ok (c.updateCellVar var.uid CellVariable.Allocate, var.Allocate)

/-- `MeshBlockData::operator==`: collects the dense map keys followed by the
face map keys of each container, in map iteration (sorted) order, and compares
the two key vectors. -/
def MeshBlockData.eqOp (c cmp : MeshBlockData) : Bool :=
  let my_keys := mapKeys c.varMap ++ mapKeys c.faceMap
  let cmp_keys := mapKeys cmp.varMap ++ mapKeys cmp.faceMap
  my_keys == cmp_keys

/-- The label set (dense union face) of a container, as the list the code
iterates; the claims quantify over membership in it. -/
def MeshBlockData.labelList (c : MeshBlockData) : List String :=
  mapKeys c.varMap ++ mapKeys c.faceMap

/-- Modelled from the spec: the body of `MeshBlockData::Add(label, metadata)`
is in `meshblock_data.cpp`, which is not under `src/`.  Per the spec it
"creates and inserts a new dense VariableRecord" and "fails with
DuplicateNameError if label already present among dense records of this kind",
all-or-nothing; "a non-Sparse record is always Allocated once added" while a
Sparse record may start Unallocated.  `fresh` is the identity of the new
record and of its storage. -/
def MeshBlockData.AddLabelMetadata (c : MeshBlockData) (label : String)
    (m : Metadata) (fresh : Nat) : Except PError MeshBlockData :=
  if c.HasCellVariable label then
    .error (.duplicateName label)
  else
    .ok (c.AddCellVar
      { uid := fresh, label := label, meta := m, allocated := !m.sparse,
        storage := fresh })

/-- The dense-variable loop of `MeshBlockData::Copy(src)` and the per-name body
of `MeshBlockData::Copy(src, names)`: a OneCopy record is inserted by shared
ownership (`Add(v)`), any other record is freshly duplicated
(`Add(v->AllocateCopy(pmy_block))`).  The fresh-identity counter is threaded
through. -/
def copyCells (dst : MeshBlockData) : List CellVariable → Nat → MeshBlockData × Nat
  | [], n => (dst, n)
  | v :: rest, n =>
    if v.IsSet .OneCopy then copyCells (dst.AddCellVar v) rest n
    else copyCells (dst.AddCellVar (v.AllocateCopy n)) rest (n + 1)

/-- The face-variable loop of `MeshBlockData::Copy(src)`: a OneCopy face record
is inserted by shared ownership; a face record lacking OneCopy throws
`std::runtime_error`. -/
def copyFaces (dst : MeshBlockData) : List FaceVariable → Except PError MeshBlockData
  | [] => .ok dst
  | f :: rest =>
    if f.IsSet .OneCopy then copyFaces (dst.AddFaceVar f) rest
    else .error (.runtimeError "Non-oneCopy face variables are not yet supported")

/-- `MeshBlockData::Copy(src)`: first `SetBlockPointer(src)` (which locks the
source's block and throws if it has expired), then the dense loop, then the
face loop. -/
def MeshBlockData.CopyAll (dst src : MeshBlockData) (fresh : Nat) :
    Except PError (MeshBlockData × Nat) :=
  match src.pmy_block with
  | none => .error (.parthenonThrow "Invalid pointer to MeshBlock!")
  | some b =>
    let p := copyCells { dst with pmy_block := some b } src.varVector fresh
    match copyFaces p.1 src.faceVector with
    | .error err => .error err
    | .ok d => .ok (d, p.2)

/-- The per-name loop of `MeshBlockData::Copy(src, names)`: each requested name
is looked up in the source's dense map only; a hit is inserted shared (OneCopy)
or freshly duplicated, a miss throws naming the missing label. -/
def copyNamesGo (dst : MeshBlockData) (vMap : List (String × CellVariable)) :
    List String → Nat → Except PError (MeshBlockData × Nat)
  | [], n => .ok (dst, n)
  | name :: rest, n =>
    match mapFind vMap name with
    | some v =>
      if v.IsSet .OneCopy then copyNamesGo (dst.AddCellVar v) vMap rest n
      else copyNamesGo (dst.AddCellVar (v.AllocateCopy n)) vMap rest (n + 1)
    | none => .error (.parthenonThrow ("MeshBlockData::Copy did not find " ++ name))

/-- `MeshBlockData::Copy(src, names)`: `SetBlockPointer(src)` (throws if the
source's block has expired) followed by the per-name loop over the source's
dense map. -/
def MeshBlockData.CopyNames (dst src : MeshBlockData) (names : List String)
    (fresh : Nat) : Except PError (MeshBlockData × Nat) :=
  match src.pmy_block with
  | none => .error (.parthenonThrow "Invalid pointer to MeshBlock!")
  | some b => copyNamesGo { dst with pmy_block := some b } src.varMap names fresh

/-- A public mutating operation on the container, for stating persistence of
`Add`/`Get` across operation sequences.  `allocSparse` applies
`AllocateSparse` and keeps the old state when it throws; `setBlock` is
`SetBlockPointer`. -/
inductive ContainerOp where
  | addCell (v : CellVariable)
  | addFace (v : FaceVariable)
  | allocSparse (label : String)
  | setBlock (p : Option MeshBlock)
deriving DecidableEq, Repr

/-- Apply one public operation to a container state. -/
def applyOp (c : MeshBlockData) : ContainerOp → MeshBlockData
  | .addCell v => c.AddCellVar v
  | .addFace v => c.AddFaceVar v
  | .allocSparse label =>
    match c.AllocateSparse label with
    | .ok p => p.1
    | .error _ => c
  | .setBlock p => { c with pmy_block := p }

/-- Apply a sequence of public operations, left to right. -/
def applyOps (c : MeshBlockData) (ops : List ContainerOp) : MeshBlockData :=
  ops.foldl applyOp c

/-- Container states reachable through the public operations, as the claims
quantify: the default-constructed container, then `Add` (either kind, with no
duplicate check, as in the header), successful `AllocateSparse`, and
`SetBlockPointer`. -/
inductive Reachable : MeshBlockData → Prop where
  | empty : Reachable emptyData
  | addCell {c : MeshBlockData} (v : CellVariable) :
      Reachable c → Reachable (c.AddCellVar v)
  | addFace {c : MeshBlockData} (v : FaceVariable) :
      Reachable c → Reachable (c.AddFaceVar v)
  | allocSparse {c d : MeshBlockData} {label : String} {v : CellVariable} :
      Reachable c → c.AllocateSparse label = .ok (d, v) → Reachable d
  | setBlock {c : MeshBlockData} (p : Option MeshBlock) :
      Reachable c → Reachable { c with pmy_block := p }

/-- Container states reachable when every `Add` inserts a label that is not
already present in its kind's map (the guarded form of `Reachable` forced by
the duplicate-`Add` counterexample). -/
inductive ReachableFresh : MeshBlockData → Prop where
  | empty : ReachableFresh emptyData
  | addCell {c : MeshBlockData} (v : CellVariable) :
      ReachableFresh c → mapFind c.varMap v.label = none →
      ReachableFresh (c.AddCellVar v)
  | addFace {c : MeshBlockData} (v : FaceVariable) :
      ReachableFresh c → mapFind c.faceMap v.label = none →
      ReachableFresh (c.AddFaceVar v)
  | allocSparse {c d : MeshBlockData} {label : String} {v : CellVariable} :
      ReachableFresh c → c.AllocateSparse label = .ok (d, v) → ReachableFresh d
  | setBlock {c : MeshBlockData} (p : Option MeshBlock) :
      ReachableFresh c → ReachableFresh { c with pmy_block := p }

/-- Mutual consistency of one ordered sequence with its name map: the labelled
records of the sequence are, up to order, exactly the entries of the map —
"every entry in one appears in the other exactly once". -/
def consistentCell (c : MeshBlockData) : Prop :=
  (c.varVector.map (fun v => (v.label, v))).Perm c.varMap

/-- Face-side mutual consistency, as `consistentCell`. -/
def consistentFace (c : MeshBlockData) : Prop :=
  (c.faceVector.map (fun v => (v.label, v))).Perm c.faceMap

/-- The invariant of the claim: both the dense pair and the face pair are
mutually consistent. -/
def consistentMaps (c : MeshBlockData) : Prop :=
  consistentCell c ∧ consistentFace c

/-- Modelled from the spec: the `TaskStatus` result type of the
boundary-exchange operations (`tasks` headers are not under `src/`) is the
tri-state {Complete, Incomplete, Fatal-error}. -/
inductive TaskStatus where
  | complete
  | incomplete
  | fail
deriving DecidableEq, Repr

/-- The boundary-exchange operations listed in the spec, section 4.4. -/
inductive BoundaryOp where
  | setupPersistentMPI
  | startReceiving
  | sendBoundaryBuffers
  | receiveBoundaryBuffers
  | receiveAndSetBoundariesWithWait
  | setBoundaries
  | clearBoundary
  | sendFluxCorrection
  | receiveFluxCorrection
  | restrictBoundaries
  | prolongateBoundaries
deriving DecidableEq, Repr

/-- Declared return type of a member function in the header. -/
inductive DeclaredReturn where
  | taskStatus
  | void
deriving DecidableEq, Repr

/-- Return types of the boundary-exchange member declarations, transcribed from
`meshblock_data.hpp` (lines 381-394): `SetupPersistentMPI`,
`RestrictBoundaries` and `ProlongateBoundaries` are declared `void`, the rest
return `TaskStatus`. -/
def boundaryOpReturn : BoundaryOp → DeclaredReturn
  | .setupPersistentMPI => .void
  | .restrictBoundaries => .void
  | .prolongateBoundaries => .void
  | _ => .taskStatus

/-- The C++ parameter and argument types occurring in the `PackVariables` and
`PackVariablesAndFluxes` overload sets of the header. -/
inductive CppType where
  | vecString
  | vecInt
  | vecFlag
  | packIndexMapPtr
  | stringPairPtr
  | vecStringPtr
  | boolTy
deriving DecidableEq, Repr

/-- One parameter of an overload: its type and whether it has a default
argument. -/
structure CppParam where
  ty : CppType
  hasDefault : Bool
deriving DecidableEq, Repr

/-- Parameter without a default argument. -/
def preq (t : CppType) : CppParam := ⟨t, false⟩

/-- Parameter with a default argument. -/
def pdfl (t : CppType) : CppParam := ⟨t, true⟩

/-- One overload of a member function, identified by the line in
`meshblock_data.hpp` where it is declared. -/
structure CppOverload where
  line : Nat
  params : List CppParam
deriving DecidableEq, Repr

/-- An argument at a call site: an expression of a known type, or the empty
braced initializer list `\x7b\x7d`. -/
inductive CppArg where
  | exact (t : CppType)
  | emptyBrace
deriving DecidableEq, Repr

/-- Whether an argument is convertible to a parameter type, restricted to the
conversions occurring in the modelled calls.  An expression converts only to
its own type (identity conversion); the empty braced list converts to every
parameter type occurring here, and per C++ [over.ics.list] an empty list
initializing a class with a default constructor is ranked as the identity
conversion, so every conversion in this model has identical (identity) rank. -/
def cppConvertible : CppArg → CppType → Bool
  | .exact t, u => t == u
  | .emptyBrace, _ => true

/-- Viability of an overload for an argument list: positional arguments must
each be convertible, and every trailing parameter without a matching argument
must carry a default. -/
def cppViable (args : List CppArg) (ov : CppOverload) : Bool :=
  args.length ≤ ov.params.length &&
  (List.zip args ov.params).all (fun p => cppConvertible p.1 p.2.ty) &&
  (ov.params.drop args.length).all (·.hasDefault)

/-- Outcome of overload resolution. -/
inductive CppResolution where
  | resolved (line : Nat)
  | ambiguous (lines : List Nat)
  | noViable
deriving DecidableEq, Repr

/-- Overload resolution over a candidate set.  Because every conversion in
`cppConvertible` has identity rank, no viable candidate is better than another,
so two or more viable candidates make the call ambiguous (ill-formed). -/
def cppResolve (ovs : List CppOverload) (args : List CppArg) : CppResolution :=
  match ovs.filter (cppViable args) with
  | [] => .noViable
  | [ov] => .resolved ov.line
  | more => .ambiguous (more.map (·.line))

/-- The `PackVariablesAndFluxes` overload set declared in `meshblock_data.hpp`
(lines 280, 286, 295, 301, 309, 314, 322, 327), transcribed parameter by
parameter. -/
def packVariablesAndFluxesOverloads : List CppOverload :=
  [⟨280, [preq .vecString, preq .vecString, pdfl .vecInt, pdfl .packIndexMapPtr,
          pdfl .stringPairPtr]⟩,
   ⟨286, [preq .vecString, preq .vecString, pdfl .packIndexMapPtr,
          pdfl .stringPairPtr]⟩,
   ⟨295, [preq .vecString, pdfl .vecInt, pdfl .packIndexMapPtr,
          pdfl .stringPairPtr]⟩,
   ⟨301, [preq .vecString, pdfl .packIndexMapPtr, pdfl .stringPairPtr]⟩,
   ⟨309, [preq .vecFlag, pdfl .vecInt, pdfl .packIndexMapPtr,
          pdfl .stringPairPtr]⟩,
   ⟨314, [preq .vecFlag, pdfl .packIndexMapPtr, pdfl .stringPairPtr]⟩,
   ⟨322, [preq .vecInt, pdfl .packIndexMapPtr, pdfl .stringPairPtr]⟩,
   ⟨327, [pdfl .packIndexMapPtr, pdfl .stringPairPtr]⟩]

/-- The `PackVariables` overload set declared in `meshblock_data.hpp`
(lines 333, 337, 344, 348, 355, 358). -/
def packVariablesOverloads : List CppOverload :=
  [⟨333, [preq .vecString, pdfl .vecInt, pdfl .boolTy, pdfl .packIndexMapPtr,
          pdfl .vecStringPtr]⟩,
   ⟨337, [preq .vecString, pdfl .boolTy, pdfl .packIndexMapPtr,
          pdfl .vecStringPtr]⟩,
   ⟨344, [preq .vecFlag, pdfl .vecInt, pdfl .boolTy, pdfl .packIndexMapPtr,
          pdfl .vecStringPtr]⟩,
   ⟨348, [preq .vecFlag, pdfl .boolTy, pdfl .packIndexMapPtr,
          pdfl .vecStringPtr]⟩,
   ⟨355, [preq .vecInt, pdfl .boolTy, pdfl .packIndexMapPtr,
          pdfl .vecStringPtr]⟩,
   ⟨358, [pdfl .boolTy, pdfl .packIndexMapPtr, pdfl .vecStringPtr]⟩]

/-- Arguments of the delegating call in the body at line 291:
`PackVariablesAndFluxes(var_names, flx_names, \x7b\x7d, vmap_out, keys_out)`. -/
def callArgs291 : List CppArg :=
  [.exact .vecString, .exact .vecString, .emptyBrace, .exact .packIndexMapPtr,
   .exact .stringPairPtr]

/-- Arguments of the delegating call in the body at line 298:
`PackVariablesAndFluxes(names, names, sparse_ids, vmap_out, keys_out)`. -/
def callArgs298 : List CppArg :=
  [.exact .vecString, .exact .vecString, .exact .vecInt, .exact .packIndexMapPtr,
   .exact .stringPairPtr]

/-- Arguments of the delegating call in the body at line 305:
`PackVariablesAndFluxes(names, \x7b\x7d, vmap_out, keys_out)`. -/
def callArgs305 : List CppArg :=
  [.exact .vecString, .emptyBrace, .exact .packIndexMapPtr, .exact .stringPairPtr]

/-- Arguments of the delegating call in the body at line 318:
`PackVariablesAndFluxes(flags, \x7b\x7d, vmap_out, keys_out)`. -/
def callArgs318 : List CppArg :=
  [.exact .vecFlag, .emptyBrace, .exact .packIndexMapPtr, .exact .stringPairPtr]

/-- Arguments of the delegating call in the body at line 329:
`PackVariablesAndFluxes(\x7b\x7d, vmap_out, keys_out)`. -/
def callArgs329 : List CppArg :=
  [.emptyBrace, .exact .packIndexMapPtr, .exact .stringPairPtr]

/-- Arguments of the delegating call in the body at line 340:
`PackVariables(names, \x7b\x7d, coarse, vmap_out, key_out)`. -/
def callArgs340 : List CppArg :=
  [.exact .vecString, .emptyBrace, .exact .boolTy, .exact .packIndexMapPtr,
   .exact .vecStringPtr]

/-- Arguments of the delegating call in the body at line 351:
`PackVariables(flags, \x7b\x7d, coarse, vmap_out, key_out)`. -/
def callArgs351 : List CppArg :=
  [.exact .vecFlag, .emptyBrace, .exact .boolTy, .exact .packIndexMapPtr,
   .exact .vecStringPtr]

/-- Arguments of the delegating call in the body at line 360:
`PackVariables(\x7b\x7d, coarse, vmap_out, key_out)`. -/
def callArgs360 : List CppArg :=
  [.emptyBrace, .exact .boolTy, .exact .packIndexMapPtr, .exact .vecStringPtr]

/-- Looking up the key just written by insert-or-assign yields the new value. -/
theorem mapFind_insertAssign_self {α : Type} (m : List (String × α)) (k : String)
    (v : α) : mapFind (mapInsertAssign m k v) k = some v := by
  induction m with
  | nil => simp [mapInsertAssign, mapFind]
  | cons p rest ih =>
    obtain ⟨k1, w⟩ := p
    by_cases h1 : k = k1
    · simp [mapInsertAssign, h1, mapFind]
    · by_cases h2 : strLt k k1 = true
      · simp [mapInsertAssign, h1, h2, mapFind]
      · simp [mapInsertAssign, h1, h2, mapFind, ih]

/-- Insert-or-assign at one key does not change lookups at another key. -/
theorem mapFind_insertAssign_ne {α : Type} (m : List (String × α)) {k k2 : String}
    (v : α) (hne : k2 ≠ k) :
    mapFind (mapInsertAssign m k v) k2 = mapFind m k2 := by
  induction m with
  | nil => simp [mapInsertAssign, mapFind, hne]
  | cons p rest ih =>
    obtain ⟨k1, w⟩ := p
    by_cases h1 : k = k1
    · subst h1
      simp [mapInsertAssign, mapFind, hne]
    · by_cases h2 : strLt k k1 = true
      · simp [mapInsertAssign, h1, h2, mapFind, hne]
      · simp [mapInsertAssign, h1, h2, mapFind, ih]

/-- A successful lookup exhibits a map entry. -/
theorem mapFind_mem {α : Type} {m : List (String × α)} {k : String} {v : α}
    (h : mapFind m k = some v) : (k, v) ∈ m := by
  induction m with
  | nil => simp [mapFind] at h
  | cons p rest ih =>
    obtain ⟨k1, w⟩ := p
    by_cases h1 : k = k1
    · subst h1
      simp [mapFind] at h
      subst h
      exact List.mem_cons_self _ _
    · simp [mapFind, h1] at h
      exact List.mem_cons_of_mem _ (ih h)

/-- A failed lookup means the key is absent. -/
theorem mapFind_eq_none {α : Type} {m : List (String × α)} {k : String}
    (h : mapFind m k = none) : k ∉ mapKeys m := by
  induction m with
  | nil => simp [mapKeys]
  | cons p rest ih =>
    obtain ⟨k1, w⟩ := p
    by_cases h1 : k = k1
    · subst h1
      simp [mapFind] at h
    · simp [mapFind, h1] at h
      simp [mapKeys, h1]
      have := ih h
      simpa [mapKeys] using this

/-- Insert-or-assign of an absent key is, up to order, consing the new entry. -/
theorem insertAssign_perm_cons {α : Type} {m : List (String × α)} {k : String}
    (v : α) (h : mapFind m k = none) :
    List.Perm (mapInsertAssign m k v) ((k, v) :: m) := by
  induction m with
  | nil => simp [mapInsertAssign]
  | cons p rest ih =>
    obtain ⟨k1, w⟩ := p
    by_cases h1 : k = k1
    · subst h1
      simp [mapFind] at h
    · simp [mapFind, h1] at h
      by_cases h2 : strLt k k1 = true
      · simp [mapInsertAssign, h1, h2]
      · simp only [mapInsertAssign, h1, h2, if_false]
        exact ((ih h).cons (k1, w)).trans (List.Perm.swap (k, v) (k1, w) rest)

/-- Lookup commutes with a value-only map transformation. -/
theorem mapFind_map_values {α : Type} (m : List (String × α)) (k : String)
    (h : α → α) :
    mapFind (m.map (fun p => (p.1, h p.2))) k = (mapFind m k).map h := by
  induction m with
  | nil => simp [mapFind]
  | cons p rest ih =>
    obtain ⟨k1, w⟩ := p
    by_cases h1 : k = k1
    · simp [mapFind, h1]
    · simp [mapFind, h1, ih]

/-- Keys are unchanged by a value-only map transformation. -/
theorem mapKeys_map_values {α : Type} (m : List (String × α)) (h : α → α) :
    mapKeys (m.map (fun p => (p.1, h p.2))) = mapKeys m := by
  induction m with
  | nil => rfl
  | cons p rest ih => simp [mapKeys, ih]

/-- In a list of records with pairwise-distinct object identities, identity
determines the record. -/
theorem uid_unique {l : List CellVariable}
    (h : l.Pairwise (fun a b => a.uid ≠ b.uid)) :
    ∀ v ∈ l, ∀ w ∈ l, v.uid = w.uid → v = w := by
  induction l with
  | nil => simp
  | cons a t ih =>
    intro v hv w hw he
    have hp := List.pairwise_cons.1 h
    rcases List.mem_cons.1 hv with rfl | hv2
    · rcases List.mem_cons.1 hw with rfl | hw2
      · rfl
      · exact absurd he (hp.1 w hw2)
    · rcases List.mem_cons.1 hw with rfl | hw2
      · exact absurd he.symm (hp.1 v hv2)
      · exact ih hp.2 v hv2 w hw2 he

/-- Inversion of a successful `AllocateSparse`: it found a sparse record and
allocated it through the shared pointer. -/
theorem allocateSparse_ok {c d : MeshBlockData} {label : String} {v : CellVariable}
    (h : c.AllocateSparse label = .ok (d, v)) :
    ∃ var, mapFind c.varMap label = some var ∧ var.IsSparse = true ∧
      d = c.updateCellVar var.uid CellVariable.Allocate ∧ v = var.Allocate := by
  unfold MeshBlockData.AllocateSparse at h
  by_cases h1 : c.HasCellVariable label
  · simp only [h1, not_true_eq_false, if_false] at h
    cases hfind : mapFind c.varMap label with
    | none => rw [hfind] at h; simp at h
    | some var =>
      rw [hfind] at h
      by_cases h2 : var.IsSparse
      · simp only [h2, not_true_eq_false, if_false, Except.ok.injEq, Prod.mk.injEq] at h
        exact ⟨var, rfl, h2 ▸ rfl, h.1.symm, h.2.symm⟩
      · simp [h2] at h
  · simp [h1] at h

/-- Under consistency, a map hit is a record of the ordered sequence carrying
its key as label. -/
theorem find_mem_vector {c : MeshBlockData} (hc : consistentCell c)
    {label : String} {v : CellVariable} (h : mapFind c.varMap label = some v) :
    v ∈ c.varVector ∧ v.label = label := by
  have hmem : (label, v) ∈ c.varMap := mapFind_mem h
  have hmem2 : (label, v) ∈ c.varVector.map (fun w => (w.label, w)) :=
    hc.mem_iff.2 hmem
  obtain ⟨u, hu, he⟩ := List.mem_map.1 hmem2
  have h1 : u.label = label := congrArg Prod.fst he
  have h2 : u = v := congrArg Prod.snd he
  subst h2
  exact ⟨hu, h1⟩

/-- Under consistency, every map entry is a record of the ordered sequence
carrying its key as label. -/
theorem map_entry_mem_vector {c : MeshBlockData} (hc : consistentCell c)
    {p : String × CellVariable} (h : p ∈ c.varMap) :
    p.2 ∈ c.varVector ∧ p.2.label = p.1 := by
  have hmem2 : p ∈ c.varVector.map (fun w => (w.label, w)) := hc.mem_iff.2 h
  obtain ⟨u, hu, he⟩ := List.mem_map.1 hmem2
  have h1 : u.label = p.1 := congrArg Prod.fst he
  have h2 : u = p.2 := congrArg Prod.snd he
  subst h2
  exact ⟨hu, h1⟩

/-- A label-preserving pointer mutation preserves dense-side consistency. -/
theorem consistentCell_updateCellVar {c : MeshBlockData} (hc : consistentCell c)
    (uid : Nat) (f : CellVariable → CellVariable)
    (hf : ∀ v, (f v).label = v.label) :
    consistentCell (c.updateCellVar uid f) := by
  unfold consistentCell at hc ⊢
  unfold MeshBlockData.updateCellVar
  simp only []
  have heq :
      (c.varVector.map (fun v => if v.uid = uid then f v else v)).map
        (fun v => (v.label, v)) =
      (c.varVector.map (fun v => (v.label, v))).map
        (fun p => if p.2.uid = uid then (p.1, f p.2) else p) := by
    rw [List.map_map, List.map_map]
    apply List.map_congr_left
    intro v _
    by_cases h : v.uid = uid
    · simp [Function.comp, h, hf v]
    · simp [Function.comp, h]
  rw [heq]
  exact hc.map _

/-- A pointer mutation of a dense record leaves the face side untouched. -/
theorem consistentFace_updateCellVar {c : MeshBlockData} (hc : consistentFace c)
    (uid : Nat) (f : CellVariable → CellVariable) :
    consistentFace (c.updateCellVar uid f) := hc

/-- Plain metadata fixture: neither Sparse nor OneCopy. -/
def mdPlain : Metadata := ⟨false, false⟩

/-- Sparse metadata fixture. -/
def mdSparse : Metadata := ⟨true, false⟩

/-- OneCopy metadata fixture. -/
def mdOneCopy : Metadata := ⟨false, true⟩

/-- First fixture record labelled "a". -/
def dupV1 : CellVariable := ⟨0, "a", mdPlain, true, 0⟩

/-- Second, distinct fixture record also labelled "a". -/
def dupV2 : CellVariable := ⟨1, "a", mdPlain, true, 1⟩

/-- The container obtained by two public `Add` calls with the same label. -/
def dupState : MeshBlockData := (emptyData.AddCellVar dupV1).AddCellVar dupV2

/-- C1 counterexample: the state reached by two public `Add` calls whose
records share the label "a" is reachable, yet its ordered dense sequence and
dense name map are not mutually consistent — `Add` performs no duplicate
check, the vector keeps both records while the map keeps only the second, so
the first record no longer appears in the map at all. -/
theorem C1_counterexample : Reachable dupState ∧ ¬ consistentMaps dupState := by
  refine ⟨.addCell dupV2 (.addCell dupV1 .empty), fun h => ?_⟩
  exact absurd h.1.length_eq (by decide)

/-- C1 (amended): for every container state reachable through the public
operations in which each `Add` inserts a label not already present in its
kind's name map, the ordered dense sequence and the dense name map are
mutually consistent (the labelled records of the vector are exactly the map
entries, up to order, so each appears in the other exactly once), and likewise
for the face sequence and face map. -/
theorem C1_amended_invariant (c : MeshBlockData) (h : ReachableFresh c) :
    consistentMaps c := by
  induction h with
  | empty =>
    exact ⟨by simp [consistentCell, emptyData], by simp [consistentFace, emptyData]⟩
  | addCell v hr hfind ih =>
    refine ⟨?_, ih.2⟩
    unfold consistentCell MeshBlockData.AddCellVar
    simp only [List.map_append, List.map_cons, List.map_nil]
    exact ((ih.1.append_right _).trans (List.perm_append_singleton _ _)).trans
      (insertAssign_perm_cons v hfind).symm
  | addFace v hr hfind ih =>
    refine ⟨ih.1, ?_⟩
    unfold consistentFace MeshBlockData.AddFaceVar
    simp only [List.map_append, List.map_cons, List.map_nil]
    exact ((ih.2.append_right _).trans (List.perm_append_singleton _ _)).trans
      (insertAssign_perm_cons v hfind).symm
  | allocSparse hr hok ih =>
    obtain ⟨var, hfind, hsp, rfl, heq⟩ := allocateSparse_ok hok
    refine ⟨consistentCell_updateCellVar ih.1 _ _ (fun v => ?_), ih.2⟩
    by_cases hv : v.allocated <;> simp [CellVariable.Allocate, hv]
  | setBlock p hr ih => exact ih

/-- Witness for C1 (amended) at a concrete reachable state. -/
theorem C1_amended_witness :
    ReachableFresh (emptyData.AddCellVar dupV1) ∧
    consistentMaps (emptyData.AddCellVar dupV1) := by
  have hr : ReachableFresh (emptyData.AddCellVar dupV1) := .addCell dupV1 .empty rfl
  exact ⟨hr, C1_amended_invariant _ hr⟩

/-- Keys of a map are unchanged by a key-preserving entry transformation. -/
theorem mapKeys_map_keyfix {α : Type} (m : List (String × α))
    (g : String × α → String × α) (hg : ∀ p, (g p).1 = p.1) :
    mapKeys (m.map g) = mapKeys m := by
  unfold mapKeys
  rw [List.map_map]
  exact List.map_congr_left (fun p _ => hg p)

/-- Container A of the equality counterexample: dense records "a" and "b". -/
def eqA : MeshBlockData :=
  (emptyData.AddCellVar ⟨0, "a", mdPlain, true, 0⟩).AddCellVar
    ⟨1, "b", mdPlain, true, 1⟩

/-- Container B of the equality counterexample: dense record "b" and face
record "a" — the same label set as A, split differently between the kinds. -/
def eqB : MeshBlockData :=
  (emptyData.AddCellVar ⟨2, "b", mdPlain, true, 2⟩).AddFaceVar ⟨3, "a", mdPlain, 3⟩

/-- C2 counterexample: containers A and B have identical sets of variable
labels (dense union face), yet `operator==` returns false, because it compares
the concatenation of the sorted dense key list and the sorted face key list as
a sequence — here ["a", "b"] against ["b", "a"]. -/
theorem C2_counterexample :
    (∀ s : String, s ∈ eqA.labelList ↔ s ∈ eqB.labelList) ∧
    MeshBlockData.eqOp eqA eqB = false := by
  have hA : eqA.labelList = ["a", "b"] := rfl
  have hB : eqB.labelList = ["b", "a"] := rfl
  refine ⟨fun s => ?_, rfl⟩
  rw [hA, hB]
  simp [or_comm]

/-- C2 (amended): `operator==` returns true iff the concatenation of the
sorted dense-label list and the sorted face-label list of the two containers
coincide as sequences (a finer relation than equality of the union label
sets), and the comparison never inspects the records themselves: any
label-preserving mutation of the stored records (e.g. of their storage
contents or allocation state) leaves the comparison unchanged. -/
theorem C2_amended_eqOp (a b : MeshBlockData) :
    (MeshBlockData.eqOp a b = true ↔ a.labelList = b.labelList) ∧
    (∀ (uid : Nat) (f : CellVariable → CellVariable),
      (∀ v, (f v).label = v.label) →
      MeshBlockData.eqOp (a.updateCellVar uid f) b = MeshBlockData.eqOp a b) := by
  constructor
  · simp only [MeshBlockData.eqOp, MeshBlockData.labelList]
    exact beq_iff_eq
  · intro uid f hf
    simp only [MeshBlockData.eqOp, MeshBlockData.updateCellVar]
    rw [mapKeys_map_keyfix]
    intro p
    by_cases h : p.2.uid = uid <;> simp [h]

/-- Witness for C2 (amended) at concrete containers: a storage mutation does
not affect the comparison, and the comparison of A with itself reflects equal
key sequences. -/
theorem C2_amended_witness :
    MeshBlockData.eqOp (eqA.updateCellVar 0 (fun v => { v with storage := 99 })) eqA =
      MeshBlockData.eqOp eqA eqA ∧
    (MeshBlockData.eqOp eqA eqA = true ↔ eqA.labelList = eqA.labelList) :=
  ⟨(C2_amended_eqOp eqA eqA).2 0 _ (fun _ => rfl), (C2_amended_eqOp eqA eqA).1⟩

/-- C3: adding a dense variable through `Add(label, metadata)` (modelled from
the spec, its body being outside `src/`) when the label is already present
among the dense variables fails with DuplicateNameError; the `Except` result
carries no container, so nothing is appended to the ordered sequence and the
name map is not overwritten. -/
theorem C3_add_duplicate (c : MeshBlockData) (label : String) (m : Metadata)
    (fresh : Nat) (h : c.HasCellVariable label = true) :
    c.AddLabelMetadata label m fresh = .error (.duplicateName label) := by
  simp [MeshBlockData.AddLabelMetadata, h]

/-- Witness for C3: a duplicate add of "a" on a container already holding "a"
fails with DuplicateNameError. -/
theorem C3_witness :
    (emptyData.AddCellVar dupV1).HasCellVariable "a" = true ∧
    (emptyData.AddCellVar dupV1).AddLabelMetadata "a" mdPlain 7 =
      .error (.duplicateName "a") :=
  ⟨rfl, C3_add_duplicate _ "a" mdPlain 7 rfl⟩

/-- The name map after a pointer mutation, rewritten to a value-only map
transformation. -/
theorem updateCellVar_varMap (c : MeshBlockData) (uid : Nat)
    (f : CellVariable → CellVariable) :
    (c.updateCellVar uid f).varMap =
      c.varMap.map (fun p => (p.1, if p.2.uid = uid then f p.2 else p.2)) := by
  unfold MeshBlockData.updateCellVar
  apply List.map_congr_left
  intro p _
  by_cases h : p.2.uid = uid <;> simp [h]

/-- C4: `AllocateSparse(label)` fails with the no-such-variable throw if the
label is absent, fails with the non-sparse throw if the found record is not
tagged Sparse, succeeds otherwise leaving the record Allocated, and on a
sparse record that is already allocated it is idempotent: no error, and both
the container state and the returned record are unchanged.  The idempotence
part assumes the container is well formed (ordered sequence and map mutually
consistent, object identities pairwise distinct), which every honestly built
container satisfies. -/
theorem C4_allocateSparse (c : MeshBlockData) (label : String) :
    (c.HasCellVariable label = false →
      c.AllocateSparse label = .error (.parthenonThrow
        ("Tried to allocate sparse variable " ++ label ++
          ", but no such sparse variable exists"))) ∧
    (∀ v, mapFind c.varMap label = some v → v.IsSparse = false →
      c.AllocateSparse label = .error (.parthenonThrow
        ("Tried to allocate non-sparse variable " ++ label))) ∧
    (∀ v, mapFind c.varMap label = some v → v.IsSparse = true →
      c.AllocateSparse label =
        .ok (c.updateCellVar v.uid CellVariable.Allocate, v.Allocate) ∧
      (c.updateCellVar v.uid CellVariable.Allocate).IsAllocatedLabel label = true) ∧
    (∀ v, mapFind c.varMap label = some v → v.IsSparse = true →
      v.allocated = true → consistentCell c →
      c.varVector.Pairwise (fun a b => a.uid ≠ b.uid) →
      c.AllocateSparse label = .ok (c, v)) := by
  refine ⟨fun h => ?_, fun v hfind hsp => ?_, fun v hfind hsp => ⟨?_, ?_⟩,
    fun v hfind hsp halloc hcons hpair => ?_⟩
  · unfold MeshBlockData.AllocateSparse
    simp [h]
  · unfold MeshBlockData.AllocateSparse
    simp [MeshBlockData.HasCellVariable, hfind, hsp]
  · unfold MeshBlockData.AllocateSparse
    simp [MeshBlockData.HasCellVariable, hfind, hsp]
  · have hmv := mapFind_map_values c.varMap label
      (fun w => if w.uid = v.uid then CellVariable.Allocate w else w)
    simp only [MeshBlockData.IsAllocatedLabel, updateCellVar_varMap]
    rw [hmv, hfind]
    by_cases hv : v.allocated <;>
      simp [CellVariable.Allocate, CellVariable.IsAllocated, hv]
  · have hAv : v.Allocate = v := by simp [CellVariable.Allocate, halloc]
    have hvmem := find_mem_vector hcons hfind
    have hupd : c.updateCellVar v.uid CellVariable.Allocate = c := by
      have h1 : c.varVector.map
          (fun w => if w.uid = v.uid then CellVariable.Allocate w else w) =
          c.varVector := by
        have hcg : ∀ w ∈ c.varVector,
            (if w.uid = v.uid then CellVariable.Allocate w else w) = id w := by
          intro w hw
          by_cases h : w.uid = v.uid
          · have hwv : w = v := uid_unique hpair w hw v hvmem.1 h
            subst hwv
            simp [h, hAv]
          · simp [h]
        rw [List.map_congr_left hcg, List.map_id]
      have h2 : c.varMap.map
          (fun p => if p.2.uid = v.uid then (p.1, CellVariable.Allocate p.2) else p) =
          c.varMap := by
        have hcg : ∀ p ∈ c.varMap,
            (if p.2.uid = v.uid then (p.1, CellVariable.Allocate p.2) else p) =
              id p := by
          intro p hp
          obtain ⟨p1, p2⟩ := p
          by_cases h : p2.uid = v.uid
          · have hmem := map_entry_mem_vector hcons hp
            have hpv : p2 = v := uid_unique hpair p2 hmem.1 v hvmem.1 h
            simp [h, hpv, hAv]
          · simp [h]
        rw [List.map_congr_left hcg, List.map_id]
      unfold MeshBlockData.updateCellVar
      rw [h1, h2]
    have hpos : c.AllocateSparse label =
        .ok (c.updateCellVar v.uid CellVariable.Allocate, v.Allocate) := by
      unfold MeshBlockData.AllocateSparse
      simp [MeshBlockData.HasCellVariable, hfind, hsp]
    rw [hpos, hupd, hAv]

/-- Sparse, already-allocated fixture record. -/
def spV : CellVariable := ⟨5, "s", mdSparse, true, 5⟩

/-- Container holding the sparse allocated fixture. -/
def spState : MeshBlockData := emptyData.AddCellVar spV

/-- Witness for C4 at a concrete container: allocating an already-allocated
sparse variable returns the unchanged container and record. -/
theorem C4_witness :
    mapFind spState.varMap "s" = some spV ∧ spV.IsSparse = true ∧
    spV.allocated = true ∧ spState.AllocateSparse "s" = .ok (spState, spV) := by
  refine ⟨rfl, rfl, rfl, ?_⟩
  exact (C4_allocateSparse spState "s").2.2.2 spV rfl rfl rfl
    (List.Perm.refl _) (by simp [spState, emptyData, MeshBlockData.AddCellVar])

/-- Allocation through the shared pointer changes neither the object identity
nor the label of a record. -/
theorem Allocate_preserves (v : CellVariable) :
    (v.Allocate).uid = v.uid ∧ (v.Allocate).label = v.label := by
  by_cases h : v.allocated <;> simp [CellVariable.Allocate, h]

/-- Lookup at a label survives any public operation sequence containing no
`Add` of a record with that label, preserving the object identity and label of
the mapped record. -/
theorem applyOps_preserves_label (v : CellVariable) :
    ∀ ops : List ContainerOp,
      (∀ w : CellVariable, ContainerOp.addCell w ∈ ops → w.label ≠ v.label) →
      ∀ c : MeshBlockData,
        (∃ w0, mapFind c.varMap v.label = some w0 ∧
          w0.uid = v.uid ∧ w0.label = v.label) →
        ∃ w1, mapFind (applyOps c ops).varMap v.label = some w1 ∧
          w1.uid = v.uid ∧ w1.label = v.label := by
  intro ops
  induction ops with
  | nil => intro _ c hc; simpa [applyOps] using hc
  | cons op rest ih =>
    intro h c hc
    have hrest : ∀ w, ContainerOp.addCell w ∈ rest → w.label ≠ v.label :=
      fun w hw => h w (List.mem_cons_of_mem _ hw)
    have hstep : ∃ w0, mapFind (applyOp c op).varMap v.label = some w0 ∧
        w0.uid = v.uid ∧ w0.label = v.label := by
      obtain ⟨w0, hw0, hu, hl⟩ := hc
      cases op with
      | addCell w =>
        have hne : v.label ≠ w.label := (h w (List.mem_cons_self _ _)).symm
        exact ⟨w0, by
          simpa [applyOp, MeshBlockData.AddCellVar,
            mapFind_insertAssign_ne c.varMap w hne] using hw0, hu, hl⟩
      | addFace w => exact ⟨w0, hw0, hu, hl⟩
      | allocSparse l =>
        cases halloc : c.AllocateSparse l with
        | error e => exact ⟨w0, by simp [applyOp, halloc, hw0], hu, hl⟩
        | ok p =>
          obtain ⟨d, vr⟩ := p
          obtain ⟨var, hf, hs, hd, hv⟩ := allocateSparse_ok halloc
          refine ⟨if w0.uid = var.uid then w0.Allocate else w0, ?_, ?_, ?_⟩
          · simp only [applyOp, halloc]
            rw [hd, updateCellVar_varMap,
              mapFind_map_values c.varMap v.label
                (fun w => if w.uid = var.uid then CellVariable.Allocate w else w),
              hw0]
            rfl
          · by_cases hcase : w0.uid = var.uid
            · rw [if_pos hcase, (Allocate_preserves w0).1]
              exact hu
            · rw [if_neg hcase]
              exact hu
          · by_cases hcase : w0.uid = var.uid
            · rw [if_pos hcase, (Allocate_preserves w0).2]
              exact hl
            · rw [if_neg hcase]
              exact hl
      | setBlock p => exact ⟨w0, hw0, hu, hl⟩
    have hr := ih hrest (applyOp c op) hstep
    simpa [applyOps, List.foldl] using hr

/-- C5 counterexample: after `Add` of the record `dupV1` with label "a", the
further public operation `Add(dupV2)` — a sequence containing no Remove("a")
— leaves HasVariable("a") true but makes Get("a") return `dupV2`, a record
distinct (different object identity) from the one originally added, because
the unguarded `Add` overwrites the name-map slot. -/
theorem C5_counterexample :
    applyOps (emptyData.AddCellVar dupV1) [.addCell dupV2] = dupState ∧
    dupState.HasCellVariable "a" = true ∧
    dupState.GetCellVarPtr "a" = .ok dupV2 ∧
    dupV2.uid ≠ dupV1.uid := by
  exact ⟨rfl, rfl, rfl, by decide⟩

/-- C5 (amended): for every label L added via `Add`, HasVariable(L) is true
and Get(L) returns the very record that was added (same object identity; its
fields may have been mutated in place through the shared pointer, e.g. by
AllocateSparse), and this persists across any further public operations that
do not Add another record labelled L (the embedded mutator set contains no
Remove). -/
theorem C5_amended_persistence (c : MeshBlockData) (v : CellVariable)
    (ops : List ContainerOp)
    (h : ∀ w : CellVariable, ContainerOp.addCell w ∈ ops → w.label ≠ v.label) :
    (applyOps (c.AddCellVar v) ops).HasCellVariable v.label = true ∧
    ∃ w, (applyOps (c.AddCellVar v) ops).GetCellVarPtr v.label = .ok w ∧
      w.uid = v.uid ∧ w.label = v.label := by
  have hbase : ∃ w0, mapFind (c.AddCellVar v).varMap v.label = some w0 ∧
      w0.uid = v.uid ∧ w0.label = v.label :=
    ⟨v, by simp [MeshBlockData.AddCellVar, mapFind_insertAssign_self], rfl, rfl⟩
  obtain ⟨w1, hw1, hu, hl⟩ := applyOps_preserves_label v ops h _ hbase
  refine ⟨by simp [MeshBlockData.HasCellVariable, hw1], w1, ?_, hu, hl⟩
  simp [MeshBlockData.GetCellVarPtr, hw1]

/-- Witness for C5 (amended) at a concrete container and operation list. -/
theorem C5_amended_witness :
    (applyOps (emptyData.AddCellVar dupV1) [.setBlock none]).HasCellVariable
      dupV1.label = true ∧
    ∃ w, (applyOps (emptyData.AddCellVar dupV1)
        [.setBlock none]).GetCellVarPtr dupV1.label = .ok w ∧
      w.uid = dupV1.uid ∧ w.label = dupV1.label :=
  C5_amended_persistence emptyData dupV1 [.setBlock none]
    (by intro w hw; simp at hw)

/-- The dense copy loop only appends records: what is already present stays. -/
theorem copyCells_mono (l : List CellVariable) :
    ∀ (d : MeshBlockData) (n : Nat) (w : CellVariable), w ∈ d.varVector →
      w ∈ (copyCells d l n).1.varVector := by
  induction l with
  | nil => intro d n w hw; simpa [copyCells] using hw
  | cons v rest ih =>
    intro d n w hw
    by_cases hoc : v.IsSet .OneCopy = true <;>
      simp only [copyCells, hoc, if_true, Bool.false_eq_true, if_false] <;>
      exact ih _ _ w (by simp [MeshBlockData.AddCellVar, hw])

/-- The fresh-identity counter of the dense copy loop never decreases. -/
theorem copyCells_counter_le (l : List CellVariable) :
    ∀ (d : MeshBlockData) (n : Nat), n ≤ (copyCells d l n).2 := by
  induction l with
  | nil => intro d n; simp [copyCells]
  | cons v rest ih =>
    intro d n
    by_cases hoc : v.IsSet .OneCopy = true
    · simp only [copyCells, hoc, if_true]
      exact ih _ n
    · simp only [copyCells, hoc, Bool.false_eq_true, if_false]
      exact (Nat.le_succ n).trans (ih _ (n + 1))

/-- Every OneCopy source record is inserted into the destination by shared
ownership: the very same record (object and storage identity included). -/
theorem copyCells_mem_oneCopy (l : List CellVariable) :
    ∀ (d : MeshBlockData) (n : Nat) (v : CellVariable), v ∈ l →
      v.IsSet .OneCopy = true → v ∈ (copyCells d l n).1.varVector := by
  induction l with
  | nil => simp
  | cons a rest ih =>
    intro d n v hv hoc
    rcases List.mem_cons.1 hv with rfl | hv2
    · simp only [copyCells, hoc, if_true]
      exact copyCells_mono rest _ _ v (by simp [MeshBlockData.AddCellVar])
    · by_cases ha : a.IsSet .OneCopy = true <;>
        simp only [copyCells, ha, if_true, Bool.false_eq_true, if_false] <;>
        exact ih _ _ v hv2 hoc

/-- Every non-OneCopy source record yields a destination record with the same
label and metadata whose storage identity is at least the starting counter. -/
theorem copyCells_mem_copy (l : List CellVariable) :
    ∀ (d : MeshBlockData) (n : Nat) (v : CellVariable), v ∈ l →
      v.IsSet .OneCopy = false →
      ∃ w ∈ (copyCells d l n).1.varVector,
        w.label = v.label ∧ w.meta = v.meta ∧ n ≤ w.storage := by
  induction l with
  | nil => simp
  | cons a rest ih =>
    intro d n v hv hoc
    rcases List.mem_cons.1 hv with rfl | hv2
    · simp only [copyCells, hoc, Bool.false_eq_true, if_false]
      exact ⟨v.AllocateCopy n,
        copyCells_mono rest _ _ _ (by simp [MeshBlockData.AddCellVar]),
        rfl, rfl, Nat.le_refl n⟩
    · by_cases ha : a.IsSet .OneCopy = true
      · simp only [copyCells, ha, if_true]
        exact ih _ _ v hv2 hoc
      · simp only [copyCells, ha, Bool.false_eq_true, if_false]
        obtain ⟨w, hw, h1, h2, h3⟩ := ih (d.AddCellVar (a.AllocateCopy n)) (n + 1) v hv2 hoc
        exact ⟨w, hw, h1, h2, (Nat.le_succ n).trans h3⟩

/-- If every face record is OneCopy, the face copy loop succeeds, leaves the
dense side and block pointer alone, keeps existing face records, and inserts
every source face record by shared ownership. -/
theorem copyFaces_ok (l : List FaceVariable) :
    ∀ d : MeshBlockData, (∀ f ∈ l, f.IsSet .OneCopy = true) →
      ∃ d2, copyFaces d l = .ok d2 ∧ d2.varVector = d.varVector ∧
        d2.pmy_block = d.pmy_block ∧
        (∀ g, g ∈ d.faceVector → g ∈ d2.faceVector) ∧
        (∀ f ∈ l, f ∈ d2.faceVector) := by
  induction l with
  | nil => intro d _; exact ⟨d, rfl, rfl, rfl, fun g hg => hg, by simp⟩
  | cons a rest ih =>
    intro d h
    have ha := h a (List.mem_cons_self _ _)
    obtain ⟨d2, h1, h2, h3, h4, h5⟩ :=
      ih (d.AddFaceVar a) (fun f hf => h f (List.mem_cons_of_mem _ hf))
    refine ⟨d2, by simp only [copyFaces, ha, if_true]; exact h1,
      by simpa [MeshBlockData.AddFaceVar] using h2,
      by simpa [MeshBlockData.AddFaceVar] using h3,
      fun g hg => h4 g (by simp [MeshBlockData.AddFaceVar, hg]), ?_⟩
    intro f hf
    rcases List.mem_cons.1 hf with rfl | hf2
    · exact h4 f (by simp [MeshBlockData.AddFaceVar])
    · exact h5 f hf2

/-- A face record lacking OneCopy anywhere in the list makes the face copy
loop throw the not-yet-supported runtime error. -/
theorem copyFaces_err (l : List FaceVariable) :
    ∀ d : MeshBlockData, (∃ f ∈ l, f.IsSet .OneCopy = false) →
      copyFaces d l =
        .error (.runtimeError "Non-oneCopy face variables are not yet supported") := by
  induction l with
  | nil => simp
  | cons a rest ih =>
    intro d hex
    obtain ⟨f, hf, hoc⟩ := hex
    rcases List.mem_cons.1 hf with rfl | hf2
    · simp [copyFaces, hoc]
    · by_cases ha : a.IsSet .OneCopy = true
      · simp only [copyFaces, ha, if_true]
        exact ih _ ⟨f, hf2, hoc⟩
      · simp [copyFaces, ha]

/-- C6: deriving a container from a source through `Copy(src)` inserts every
OneCopy record (dense or face) by shared ownership — the very same record,
storage identity included, so a mutation through either container is observed
through the other — and gives every non-OneCopy dense record a fresh
duplicate: same label and metadata, but a storage identity distinct from that
of every source record (given a fresh-identity counter above every storage in
use), so mutations do not propagate; a face record lacking OneCopy makes the
whole copy fail with the not-yet-supported runtime error. -/
theorem C6_copy_semantics (dst src : MeshBlockData) (fresh : Nat) (b : MeshBlock)
    (hb : src.pmy_block = some b)
    (hfresh : ∀ v ∈ src.varVector, v.storage < fresh) :
    ((∀ f ∈ src.faceVector, f.IsSet .OneCopy = true) →
      ∃ d n2, MeshBlockData.CopyAll dst src fresh = .ok (d, n2) ∧
        (∀ v ∈ src.varVector, v.IsSet .OneCopy = true → v ∈ d.varVector) ∧
        (∀ v ∈ src.varVector, v.IsSet .OneCopy = false →
          ∃ w ∈ d.varVector, w.label = v.label ∧ w.meta = v.meta ∧
            ∀ u ∈ src.varVector, w.storage ≠ u.storage) ∧
        (∀ f ∈ src.faceVector, f ∈ d.faceVector)) ∧
    ((∃ f ∈ src.faceVector, f.IsSet .OneCopy = false) →
      MeshBlockData.CopyAll dst src fresh =
        .error (.runtimeError "Non-oneCopy face variables are not yet supported")) := by
  constructor
  · intro hfaces
    obtain ⟨d2, h1, h2, h3, h4, h5⟩ := copyFaces_ok src.faceVector
      (copyCells { dst with pmy_block := some b } src.varVector fresh).1 hfaces
    refine ⟨d2, (copyCells { dst with pmy_block := some b } src.varVector fresh).2,
      ?_, ?_, ?_, h5⟩
    · unfold MeshBlockData.CopyAll
      rw [hb]
      simp only [h1]
    · intro v hv hoc
      rw [h2]
      exact copyCells_mem_oneCopy src.varVector _ _ v hv hoc
    · intro v hv hoc
      obtain ⟨w, hw, hl, hm, hs⟩ :=
        copyCells_mem_copy src.varVector { dst with pmy_block := some b } fresh v hv hoc
      refine ⟨w, by rw [h2]; exact hw, hl, hm, ?_⟩
      intro u hu
      exact Nat.ne_of_gt (Nat.lt_of_lt_of_le (hfresh u hu) hs)
  · intro hex
    unfold MeshBlockData.CopyAll
    rw [hb]
    simp only [copyFaces_err src.faceVector _ hex]

/-- Owning-block fixture for the copy witness. -/
def cpBlock : MeshBlock :=
  ⟨0, ⟨⟨0, 0⟩, ⟨0, 0⟩, ⟨0, 0⟩, ⟨0, 0⟩, ⟨0, 0⟩, ⟨0, 0⟩⟩, 0⟩

/-- OneCopy dense fixture record. -/
def cpOneCopyV : CellVariable := ⟨0, "oc", mdOneCopy, true, 0⟩

/-- Non-OneCopy dense fixture record. -/
def cpPlainV : CellVariable := ⟨1, "pl", mdPlain, true, 1⟩

/-- OneCopy face fixture record. -/
def cpFaceV : FaceVariable := ⟨2, "fc", mdOneCopy, 2⟩

/-- Source container fixture for the copy witness. -/
def cpSrc : MeshBlockData :=
  { pmy_block := some cpBlock,
    varVector := [cpOneCopyV, cpPlainV],
    faceVector := [cpFaceV],
    varMap := [("oc", cpOneCopyV), ("pl", cpPlainV)],
    faceMap := [("fc", cpFaceV)] }

/-- Witness for C6 at a concrete source container. -/
theorem C6_witness :
    cpSrc.pmy_block = some cpBlock ∧
    (∀ v ∈ cpSrc.varVector, v.storage < 10) ∧
    (∀ f ∈ cpSrc.faceVector, f.IsSet .OneCopy = true) ∧
    (∃ d n2, MeshBlockData.CopyAll emptyData cpSrc 10 = .ok (d, n2) ∧
      (∀ v ∈ cpSrc.varVector, v.IsSet .OneCopy = true → v ∈ d.varVector) ∧
      (∀ v ∈ cpSrc.varVector, v.IsSet .OneCopy = false →
        ∃ w ∈ d.varVector, w.label = v.label ∧ w.meta = v.meta ∧
          ∀ u ∈ cpSrc.varVector, w.storage ≠ u.storage) ∧
      (∀ f ∈ cpSrc.faceVector, f ∈ d.faceVector)) :=
  ⟨rfl, by decide, by decide,
    (C6_copy_semantics emptyData cpSrc 10 cpBlock rfl (by decide)).1 (by decide)⟩

/-- C7 counterexample: `SetupPersistentMPI` is declared `void` in the header,
not `TaskStatus`: contrary to the claim, it returns no tri-state result to its
caller. -/
theorem C7_counterexample :
    boundaryOpReturn .setupPersistentMPI ≠ .taskStatus := by
  decide

/-- C7 (amended): every boundary-exchange operation listed in spec section 4.4
other than SetupPersistentMPI, RestrictBoundaries and ProlongateBoundaries is
declared to return the tri-state TaskStatus (Complete, Incomplete,
Fatal-error); those three are declared void and report nothing through their
return value. -/
theorem C7_amended_returns :
    (∀ op : BoundaryOp, op ≠ .setupPersistentMPI → op ≠ .restrictBoundaries →
      op ≠ .prolongateBoundaries → boundaryOpReturn op = .taskStatus) ∧
    (∀ s : TaskStatus, s = .complete ∨ s = .incomplete ∨ s = .fail) ∧
    boundaryOpReturn .setupPersistentMPI = .void ∧
    boundaryOpReturn .restrictBoundaries = .void ∧
    boundaryOpReturn .prolongateBoundaries = .void := by
  refine ⟨?_, ?_, rfl, rfl, rfl⟩
  · intro op h1 h2 h3
    cases op <;>
      first
        | rfl
        | exact absurd rfl h1
        | exact absurd rfl h2
        | exact absurd rfl h3
  · intro s
    cases s <;> simp

/-- Witness for C7 (amended) at a concrete operation. -/
theorem C7_amended_witness :
    boundaryOpReturn .sendBoundaryBuffers = .taskStatus :=
  C7_amended_returns.1 .sendBoundaryBuffers (by decide) (by decide) (by decide)

/-- C8: C++ overload resolution evaluated on the delegating bodies of the
pack entry points.  The overloads at header lines 286 (two-name flux pack),
298 via 295 (one-name flux pack with sparse ids), 318 via 314 (flag flux
pack), 340 via 337 (name variable pack) and 351 via 348 (flag variable pack)
resolve uniquely to their canonical overload with an empty braced list for the
sparse-id filter.  But the no-filter calls in the bodies at lines 305, 329 and
360 are ambiguous — the empty braced list converts with identity rank to
`std::vector<std::string>`, `std::vector<int>` and
`std::vector<MetadataFlag>` alike — so those three delegating overloads are
ill-formed and cannot return anything, let alone the canonical overload's
result (g++ 12 confirms the ambiguity on an extracted overload set). -/
theorem C8_delegation_resolution :
    cppResolve packVariablesAndFluxesOverloads callArgs291 = .resolved 280 ∧
    cppResolve packVariablesAndFluxesOverloads callArgs298 = .resolved 280 ∧
    cppResolve packVariablesAndFluxesOverloads callArgs318 = .resolved 309 ∧
    cppResolve packVariablesOverloads callArgs340 = .resolved 333 ∧
    cppResolve packVariablesOverloads callArgs351 = .resolved 344 ∧
    cppResolve packVariablesAndFluxesOverloads callArgs305 = .ambiguous [286, 295] ∧
    cppResolve packVariablesAndFluxesOverloads callArgs329 =
      .ambiguous [301, 314, 322] ∧
    cppResolve packVariablesOverloads callArgs360 = .ambiguous [337, 348, 355] := by
  decide

/-- C9: every operation that needs the owning mesh block — GetBlockPointer,
GetParentPointer, SetAllowedDt, GetBoundsI/J/K — fails with the
stale-reference throw when the weak back-reference is expired, and otherwise
operates on the locked live block; the container holds only the non-owning
back-reference. -/
theorem C9_stale_reference (c : MeshBlockData) (dt : Int) (d : IndexDomain) :
    (c.pmy_block = none →
      c.GetBlockPointer = .error (.parthenonThrow "Invalid pointer to MeshBlock!") ∧
      c.GetParentPointer = .error (.parthenonThrow "Invalid pointer to MeshBlock!") ∧
      c.SetAllowedDt dt = .error (.parthenonThrow "Invalid pointer to MeshBlock!") ∧
      c.GetBoundsI d = .error (.parthenonThrow "Invalid pointer to MeshBlock!") ∧
      c.GetBoundsJ d = .error (.parthenonThrow "Invalid pointer to MeshBlock!") ∧
      c.GetBoundsK d = .error (.parthenonThrow "Invalid pointer to MeshBlock!")) ∧
    (∀ b, c.pmy_block = some b →
      c.GetBlockPointer = .ok b ∧
      c.GetParentPointer = .ok b ∧
      c.SetAllowedDt dt = .ok { b with allowed_dt := dt } ∧
      c.GetBoundsI d = .ok (b.cellbounds.GetBoundsI d) ∧
      c.GetBoundsJ d = .ok (b.cellbounds.GetBoundsJ d) ∧
      c.GetBoundsK d = .ok (b.cellbounds.GetBoundsK d)) := by
  constructor
  · intro h
    simp [MeshBlockData.GetBlockPointer, MeshBlockData.GetParentPointer,
      MeshBlockData.SetAllowedDt, MeshBlockData.GetBoundsI,
      MeshBlockData.GetBoundsJ, MeshBlockData.GetBoundsK, h]
  · intro b h
    simp [MeshBlockData.GetBlockPointer, MeshBlockData.GetParentPointer,
      MeshBlockData.SetAllowedDt, MeshBlockData.GetBoundsI,
      MeshBlockData.GetBoundsJ, MeshBlockData.GetBoundsK, h]

/-- Witness for C9 at the default-constructed container, whose back-reference
is not live. -/
theorem C9_witness :
    emptyData.pmy_block = none ∧
    emptyData.GetBlockPointer =
      .error (.parthenonThrow "Invalid pointer to MeshBlock!") ∧
    emptyData.GetParentPointer =
      .error (.parthenonThrow "Invalid pointer to MeshBlock!") ∧
    emptyData.SetAllowedDt 3 =
      .error (.parthenonThrow "Invalid pointer to MeshBlock!") ∧
    emptyData.GetBoundsI .interior =
      .error (.parthenonThrow "Invalid pointer to MeshBlock!") ∧
    emptyData.GetBoundsJ .interior =
      .error (.parthenonThrow "Invalid pointer to MeshBlock!") ∧
    emptyData.GetBoundsK .interior =
      .error (.parthenonThrow "Invalid pointer to MeshBlock!") := by
  have h := (C9_stale_reference emptyData 3 .interior).1 rfl
  exact ⟨rfl, h.1, h.2.1, h.2.2.1, h.2.2.2.1, h.2.2.2.2.1, h.2.2.2.2.2⟩

/-- A missing requested name makes the per-name copy loop throw, naming the
first missing label of the request. -/
theorem copyNamesGo_err (vMap : List (String × CellVariable)) :
    ∀ names : List String, (∃ m ∈ names, mapFind vMap m = none) →
      ∀ (d : MeshBlockData) (n : Nat),
        ∃ m, m ∈ names ∧ mapFind vMap m = none ∧
          copyNamesGo d vMap names n =
            .error (.parthenonThrow ("MeshBlockData::Copy did not find " ++ m)) := by
  intro names
  induction names with
  | nil => simp
  | cons a rest ih =>
    intro hex d n
    cases hfa : mapFind vMap a with
    | none =>
      exact ⟨a, List.mem_cons_self _ _, hfa, by simp [copyNamesGo, hfa]⟩
    | some v =>
      have hex2 : ∃ m ∈ rest, mapFind vMap m = none := by
        obtain ⟨m, hm, hfm⟩ := hex
        rcases List.mem_cons.1 hm with rfl | hm2
        · rw [hfa] at hfm
          cases hfm
        · exact ⟨m, hm2, hfm⟩
      by_cases hoc : v.IsSet .OneCopy = true
      · obtain ⟨m, hm, hfm, he⟩ := ih hex2 (d.AddCellVar v) n
        exact ⟨m, List.mem_cons_of_mem _ hm, hfm,
          by simp only [copyNamesGo, hfa, hoc, if_true]; exact he⟩
      · obtain ⟨m, hm, hfm, he⟩ := ih hex2 (d.AddCellVar (v.AllocateCopy n)) (n + 1)
        exact ⟨m, List.mem_cons_of_mem _ hm, hfm,
          by simp only [copyNamesGo, hfa, hoc, Bool.false_eq_true, if_false]; exact he⟩

/-- When every requested name is present in the dense map, the per-name copy
loop succeeds. -/
theorem copyNamesGo_ok (vMap : List (String × CellVariable)) :
    ∀ names : List String, (∀ m ∈ names, (mapFind vMap m).isSome = true) →
      ∀ (d : MeshBlockData) (n : Nat), ∃ r, copyNamesGo d vMap names n = .ok r := by
  intro names
  induction names with
  | nil => intro _ d n; exact ⟨(d, n), rfl⟩
  | cons a rest ih =>
    intro hall d n
    cases hfa : mapFind vMap a with
    | none =>
      have := hall a (List.mem_cons_self _ _)
      rw [hfa] at this
      cases this
    | some v =>
      have hrest : ∀ m ∈ rest, (mapFind vMap m).isSome = true :=
        fun m hm => hall m (List.mem_cons_of_mem _ hm)
      by_cases hoc : v.IsSet .OneCopy = true
      · obtain ⟨r, hr⟩ := ih hrest (d.AddCellVar v) n
        exact ⟨r, by simp only [copyNamesGo, hfa, hoc, if_true]; exact hr⟩
      · obtain ⟨r, hr⟩ := ih hrest (d.AddCellVar (v.AllocateCopy n)) (n + 1)
        exact ⟨r, by
          simp only [copyNamesGo, hfa, hoc, Bool.false_eq_true, if_false]
          exact hr⟩

/-- C10: `Copy(src, names)` throws an error naming a missing label whenever
any requested name is absent from the source's dense-variable map (so no
requested name is silently skipped: the copy succeeds only when every name is
found), and the lookup never consults the source's face variables — replacing
the source's face map and face vector leaves the operation's result
unchanged. -/
theorem C10_copy_names (dst src : MeshBlockData) (names : List String)
    (fresh : Nat) (b : MeshBlock) (hb : src.pmy_block = some b) :
    ((∃ m ∈ names, mapFind src.varMap m = none) →
      ∃ m, m ∈ names ∧ mapFind src.varMap m = none ∧
        MeshBlockData.CopyNames dst src names fresh =
          .error (.parthenonThrow ("MeshBlockData::Copy did not find " ++ m))) ∧
    ((∀ m ∈ names, (mapFind src.varMap m).isSome = true) →
      ∃ r, MeshBlockData.CopyNames dst src names fresh = .ok r) ∧
    (∀ (fm : List (String × FaceVariable)) (fv : List FaceVariable),
      MeshBlockData.CopyNames dst
        { src with faceMap := fm, faceVector := fv } names fresh =
      MeshBlockData.CopyNames dst src names fresh) := by
  refine ⟨?_, ?_, ?_⟩
  · intro hex
    obtain ⟨m, hm, hfm, he⟩ := copyNamesGo_err src.varMap names hex
      { dst with pmy_block := some b } fresh
    refine ⟨m, hm, hfm, ?_⟩
    unfold MeshBlockData.CopyNames
    rw [hb]
    exact he
  · intro hall
    obtain ⟨r, hr⟩ := copyNamesGo_ok src.varMap names hall
      { dst with pmy_block := some b } fresh
    refine ⟨r, ?_⟩
    unfold MeshBlockData.CopyNames
    rw [hb]
    exact hr
  · intro fm fv
    rfl

/-- Witness for C10 at a concrete source container and name list containing a
missing name. -/
theorem C10_witness :
    cpSrc.pmy_block = some cpBlock ∧
    (∃ m ∈ ["oc", "nope"], mapFind cpSrc.varMap m = none) ∧
    ∃ m, m ∈ ["oc", "nope"] ∧ mapFind cpSrc.varMap m = none ∧
      MeshBlockData.CopyNames emptyData cpSrc ["oc", "nope"] 10 =
        .error (.parthenonThrow ("MeshBlockData::Copy did not find " ++ m)) :=
  ⟨rfl, ⟨"nope", by decide, rfl⟩,
    (C10_copy_names emptyData cpSrc ["oc", "nope"] 10 cpBlock rfl).1
      ⟨"nope", by decide, rfl⟩⟩

end Parthenon









